import Mathlib

/-!
Verification of the chi-agent core of the ChiOS repository.

This file shallowly embeds, in Lean 4, the parts of the source that the
checked properties are about:

* the tool-call conversation loop of src/chi-agent/agent.py (function chat),
* the tool dispatch of agent.py and of mcp_server.py (call_tool),
* the D-Bus service turn of src/chi-agent/dbus_service.py (Ask / AskAsync,
  status handling), with the lock discipline of AskAsync modelled as a
  labelled transition system,
* the SQLite history store of src/chi-agent/history.py, modelled as a pure
  state type (the conversations table, the AUTOINCREMENT id counter, and the
  module-global current-conversation pointer).

Conventions of the embedding:

* JSON-representable values are the inductive type JVal; Python's
  json.dumps with its default separators is JVal.dumps (string escaping is
  modelled for the quote and backslash characters only).
* Python exceptions of a called operation are modelled with Except String:
  an operation that may raise is passed in as a value (or function) of an
  Except type, and try/except blocks become matches on it.
* Wall-clock timestamps (datetime.now) are naturals, in seconds; the
  SESSION_GAP_HOURS = 2 threshold of history.py is 7200 seconds.  SQLite's
  lexicographic ordering of ISO-8601 text timestamps agrees with the
  numeric ordering modelled here.
* The model backend (Ollama) is modelled by the finite list of responses it
  would produce: each is either a transport failure (requests raising a
  RequestException) or a reply message carrying content and tool calls.
-/

/-- JSON-representable values, the payloads exchanged with tools and stored
by the history layer. -/
inductive JVal where
  | jnull : JVal
  | jbool : Bool → JVal
  | jnum : Int → JVal
  | jstr : String → JVal
  | jarr : List JVal → JVal
  | jobj : List (String × JVal) → JVal

/-- Escaping of one character inside a JSON string literal (quote and
backslash only; other characters are emitted verbatim). -/
def escChar (c : Char) : String :=
  if c = '"' then "\\\"" else if c = '\\' then "\\\\" else String.singleton c

/-- JSON encoding of a string: json.dumps on a Python str. -/
def encStr (s : String) : String :=
  "\"" ++ String.join (s.toList.map escChar) ++ "\""

mutual
/-- Python json.dumps with the default separators (", " and ": "). -/
def JVal.dumps : JVal → String
  | .jnull => "null"
  | .jbool true => "true"
  | .jbool false => "false"
  | .jnum n => toString n
  | .jstr s => encStr s
  | .jarr xs => "[" ++ JVal.dumpsArr xs ++ "]"
  | .jobj fs => "\x7b" ++ JVal.dumpsObj fs ++ "\x7d"

/-- Element list of a dumped JSON array. -/
def JVal.dumpsArr : List JVal → String
  | [] => ""
  | [x] => x.dumps
  | x :: y :: xs => x.dumps ++ ", " ++ JVal.dumpsArr (y :: xs)

/-- Field list of a dumped JSON object. -/
def JVal.dumpsObj : List (String × JVal) → String
  | [] => ""
  | [(k, v)] => encStr k ++ ": " ++ v.dumps
  | (k, v) :: f :: fs => encStr k ++ ": " ++ v.dumps ++ ", " ++ JVal.dumpsObj (f :: fs)
end

/-- Named arguments of a tool invocation, as decoded structured data. -/
def Args := List (String × JVal)

/-- The "arguments" member of a tool call as produced by the model backend
(agent.py lines 282-287): either already structured, or a raw string that
json.loads decodes successfully, or a raw string on which json.loads raises
JSONDecodeError.  The outcome of json.loads is recorded in the constructor. -/
inductive ArgsIn where
  | structured (args : Args)
  | strOk (args : Args)
  | strBad

/-- Argument resolution of agent.py: structured arguments pass through, a
decodable string decodes, a bad string becomes the empty mapping. -/
def decodeArgs : ArgsIn → Args
  | .structured args => args
  | .strOk args => args
  | .strBad => []

/-- One tool call embedded in a backend message: tc["function"]["name"] and
tc["function"].get("arguments"). -/
structure ToolCall where
  name : String
  arguments : ArgsIn

/-- A tool implementation: accepts named arguments, returns a
JSON-representable value or raises (modelled with Except). -/
def ToolFn := Args → Except String JVal

/-- The tool registry TOOL_MAP of agent.py: an association list from tool
name to implementation (Python dict lookup is List.lookup). -/
def Registry := List (String × ToolFn)

/-- The error payload produced for an unregistered tool name. -/
def unknownToolPayload (name : String) : JVal :=
  JVal.jobj [("error", JVal.jstr ("Unknown tool: " ++ name))]

/-- The error payload produced when a tool implementation raises. -/
def raisedPayload (e : String) : JVal :=
  JVal.jobj [("error", JVal.jstr e)]

/-- Tool dispatch of the chat loop (agent.py lines 291-298): look the name
up in TOOL_MAP; on a hit run the handler, converting a raised exception to
an error payload; on a miss return the unknown-tool payload. -/
def dispatchCall (reg : Registry) (tc : ToolCall) : JVal :=
  let fn_args := decodeArgs tc.arguments
  match reg.lookup tc.name with
  | some handler =>
      match handler fn_args with
      | .ok v => v
      | .error e => raisedPayload e
  | none => unknownToolPayload tc.name

/-- Serialization of a tool result into message content (agent.py line 311):
json.dumps(result) if not isinstance(result, str) else result. -/
def toolContent : JVal → String
  | .jstr s => s
  | v => v.dumps

/-- One entry of the running message list of chat (a Python dict with role,
content and optionally tool_calls). -/
structure Msg where
  role : String
  content : String
  tool_calls : List ToolCall := []

/-- One response of the model backend to POST /api/chat: either the
transport raised (requests.RequestException) or a message arrived. -/
inductive BackendResp where
  | failure (err : String)
  | reply (content : String) (tool_calls : List ToolCall)

/-- The message dict of a backend reply, as appended to the working list
(agent.py line 272). -/
def assistantMsg (content : String) (tool_calls : List ToolCall) : Msg :=
  { role := "assistant", content := content, tool_calls := tool_calls }

/-- The tool message appended after dispatching one tool call (agent.py
lines 302-312).  record models history.record_tool_data, whose outcome the
source discards inside try/except-pass, so the result only carries the
serialized dispatch result. -/
def toolMsg (reg : Registry) (record : String → JVal → Except String Unit)
    (tc : ToolCall) : Msg :=
  let result := dispatchCall reg tc
  let _ := record tc.name result
  { role := "tool", content := toolContent result }

/-- The while-True loop of chat (agent.py lines 254-312), driven by the
finite list of responses the backend produces.  Returns none when the
response list is exhausted without the loop having terminated (the Python
loop would issue a further request), and some (final text, message list)
when the loop returns. -/
def chatLoop (reg : Registry) (record : String → JVal → Except String Unit) :
    List BackendResp → List Msg → Option (String × List Msg)
  | [], _ => none
  | .failure e :: _, messages =>
      some ("Error connecting to Ollama: " ++ e, messages)
  | .reply content tool_calls :: rest, messages =>
      let messages := messages ++ [assistantMsg content tool_calls]
      if tool_calls.isEmpty then
        some (content, messages)
      else
        chatLoop reg record rest (messages ++ tool_calls.map (toolMsg reg record))

/-- chat (agent.py lines 244-252 and the loop): seed the working list with
history plus the user prompt and run the loop. -/
def chat (reg : Registry) (record : String → JVal → Except String Unit)
    (responses : List BackendResp) (prompt : String) (history : List Msg) :
    Option (String × List Msg) :=
  chatLoop reg record responses (history ++ [{ role := "user", content := prompt }])

/-- In-memory state of the D-Bus service object ChiAgentService
(dbus_service.py __init__, lines 94-98): the status string and the running
message list self._history. -/
structure SvcState where
  status : String
  history : List Msg

/-- The freshly constructed service: status "ready", empty history. -/
def initService : SvcState := { status := "ready", history := [] }

/-- Outcomes of the three fallible operations executed inside the try block
of one turn (Ask, dbus_service.py lines 100-113, and the identical worker
body of AskAsync, lines 117-129): hist.append_message("user", prompt), the
self._chat call, and hist.append_message("assistant", response).  Each is
an Except value: error e models the operation raising an exception whose
str() is e. -/
structure TurnEnv where
  appendUser : Except String Unit
  chatTurn : Except String (String × List Msg)
  appendAssistant : Except String Unit

/-- The body of Ask (dbus_service.py lines 100-113).  Returns the response
string handed to the caller, the service state afterwards, and the list of
status values passed to _set_status in order ("thinking" first, then
"ready" or "error").  self._history is assigned only by the statement
response, self._history = self._chat(...), so it is updated exactly when
chatTurn succeeds. -/
def Ask (env : TurnEnv) (s : SvcState) : String × SvcState × List String :=
  match env.appendUser with
  | .error e => ("Error: " ++ e, { s with status := "error" }, ["thinking", "error"])
  | .ok _ =>
    match env.chatTurn with
    | .error e => ("Error: " ++ e, { s with status := "error" }, ["thinking", "error"])
    | .ok rh =>
      match env.appendAssistant with
      | .error e =>
          ("Error: " ++ e, { status := "error", history := rh.2 }, ["thinking", "error"])
      | .ok _ => (rh.1, { status := "ready", history := rh.2 }, ["thinking", "ready"])

/-- Events of the concurrency model of the service.  spawn j is AskAsync
returning the fresh job id j to its caller (dbus_service.py lines 114-115
and 131-132, before any locking); acquire j is the worker (or a synchronous
Ask) entering "with self._lock"; mutate j is a mutation of the shared
message list or status performed inside the turn; release j is the end of
the with-block, the turn having fully completed. -/
inductive TurnEv where
  | spawn (j : Nat)
  | acquire (j : Nat)
  | mutate (j : Nat)
  | release (j : Nat)
deriving DecidableEq

/-- State of the concurrency model: the holder of self._lock (none when the
lock is free) and the trace of events so far. -/
structure AgentSched where
  lock : Option Nat
  log : List TurnEv

/-- Small-step transitions of the service under Python threading.Lock
semantics: spawn is enabled in every state (AskAsync never waits for the
lock); acquire requires the lock to be free; mutate and release require the
acting job to hold it. -/
inductive AStep : AgentSched → AgentSched → Prop where
  | spawn (j : Nat) (s : AgentSched) :
      AStep s { s with log := s.log ++ [TurnEv.spawn j] }
  | acquire (j : Nat) (s : AgentSched) (h : s.lock = none) :
      AStep s { lock := some j, log := s.log ++ [TurnEv.acquire j] }
  | mutate (j : Nat) (s : AgentSched) (h : s.lock = some j) :
      AStep s { s with log := s.log ++ [TurnEv.mutate j] }
  | release (j : Nat) (s : AgentSched) (h : s.lock = some j) :
      AStep s { lock := none, log := s.log ++ [TurnEv.release j] }

/-- States reachable from the freshly published service. -/
inductive AReach : AgentSched → Prop where
  | init : AReach { lock := none, log := [] }
  | step {s t : AgentSched} : AReach s → AStep s t → AReach t

/-- Trace checker: scan the event log holding the current lock owner, and
reject any acquire while the lock is held and any mutate or release by a
non-holder.  Returns the final owner when the trace is serialized, none
otherwise. -/
def scanLock : List TurnEv → Option Nat → Option (Option Nat)
  | [], h => some h
  | TurnEv.spawn _ :: es, h => scanLock es h
  | TurnEv.acquire j :: es, h => if h = none then scanLock es (some j) else none
  | TurnEv.mutate j :: es, h => if h = some j then scanLock es h else none
  | TurnEv.release j :: es, h => if h = some j then scanLock es none else none

/-- A trace in which turns never interleave: between an acquire j and the
matching release j every mutate (and every acquire) belongs to j. -/
def turnsDisjoint (log : List TurnEv) : Prop :=
  ∃ h, scanLock log none = some h

/-- SESSION_GAP_HOURS = 2 of history.py, in seconds. -/
def SESSION_GAP : Nat := 2 * 60 * 60

/-- One message stored inside a conversation row (history.py line 79): the
dict with keys role, content and at; at_time models the "at" key. -/
structure HMsg where
  role : String
  content : String
  at_time : Nat
deriving DecidableEq

/-- One row of the conversations table. -/
structure Conv where
  id : Nat
  started_at : Nat
  updated_at : Nat
  messages : List HMsg
deriving DecidableEq

/-- State of the history module: the conversations table (in insertion
order), the next AUTOINCREMENT id, and the module-global _current_conv_id. -/
structure HistDB where
  conversations : List Conv
  nextId : Nat
  currentConvId : Option Nat
deriving DecidableEq

/-- SELECT ... FROM conversations WHERE id=? — the first row with the id. -/
def lookupConv (cid : Nat) (l : List Conv) : Option Conv :=
  l.find? (fun c => c.id == cid)

/-- INSERT INTO conversations (started_at, updated_at, messages) VALUES
(now, now, "[]") and _current_conv_id = cur.lastrowid (history.py lines
60-66). -/
def newConv (now : Nat) (db : HistDB) : Nat × HistDB :=
  (db.nextId,
   { conversations :=
       db.conversations ++ [{ id := db.nextId, started_at := now, updated_at := now, messages := [] }],
     nextId := db.nextId + 1,
     currentConvId := some db.nextId })

/-- _get_or_create_conversation (history.py lines 45-66): reuse the current
conversation when it exists and its updated_at is within SESSION_GAP of
now, otherwise insert a fresh one and make it current.  Natural-number
subtraction gives now - updated = 0 when updated is in the future, which
agrees with the Python comparison datetime.now() - updated <
timedelta(hours=2) being true for negative gaps. -/
def getOrCreateConversation (now : Nat) (db : HistDB) : Nat × HistDB :=
  match db.currentConvId with
  | some cid =>
      match lookupConv cid db.conversations with
      | some row =>
          if now - row.updated_at < SESSION_GAP then (cid, db) else newConv now db
      | none => newConv now db
  | none => newConv now db

/-- UPDATE conversations SET ... WHERE id=?: rewrite every row whose id
matches (under the uniqueness invariant, the one row). -/
def updateConv (cid : Nat) (f : Conv → Conv) (l : List Conv) : List Conv :=
  l.map (fun c => if c.id == cid then f c else c)

/-- append_message (history.py lines 69-85): pick or create the current
conversation, then append the message dict to its messages list and set
updated_at = now. -/
def append_message (role content : String) (now : Nat) (db : HistDB) : HistDB :=
  let r := getOrCreateConversation now db
  { r.2 with
    conversations :=
      updateConv r.1
        (fun c =>
          { c with
            messages := c.messages ++ [{ role := role, content := content, at_time := now }],
            updated_at := now })
        r.2.conversations }

/-- delete_conversation (history.py lines 123-131): DELETE the rows with
the id, reset _current_conv_id when it pointed at that id, and report
cur.rowcount > 0. -/
def delete_conversation (cid : Nat) (db : HistDB) : Bool × HistDB :=
  let remaining := db.conversations.filter (fun c => c.id != cid)
  let rowcount := db.conversations.length - remaining.length
  (decide (0 < rowcount),
   { db with
     conversations := remaining,
     currentConvId := if db.currentConvId = some cid then none else db.currentConvId })

/-- One summary entry returned by get_history (history.py lines 107-119). -/
structure ConvSummary where
  id : Nat
  started_at : Nat
  updated_at : Nat
  message_count : Nat
  preview : String
  messages : List HMsg
deriving DecidableEq

/-- The summary dict built for one row: message_count is the length of the
decoded messages list, preview the first user message's content truncated
to 120 characters, or "(empty)" when no user message exists. -/
def summarize (c : Conv) : ConvSummary :=
  let user_msgs := c.messages.filter (fun m => m.role == "user")
  { id := c.id,
    started_at := c.started_at,
    updated_at := c.updated_at,
    message_count := c.messages.length,
    preview := match user_msgs with
      | [] => "(empty)"
      | m :: _ => m.content.take 120,
    messages := c.messages }

/-- ORDER BY updated_at DESC: sort the table most-recently-updated first
(SQLite compares the ISO text timestamps lexicographically, which matches
the numeric order of the modelled timestamps). -/
def sortByUpdatedDesc (l : List Conv) : List Conv :=
  l.insertionSort (fun a b => b.updated_at ≤ a.updated_at)

/-- get_history (history.py lines 98-120): ORDER BY updated_at DESC
LIMIT ?, then summarize each row.  SQLite treats a negative LIMIT as no
limit, so a negative argument returns every row. -/
def get_history (limit : Int) (db : HistDB) : List ConvSummary :=
  let sorted := sortByUpdatedDesc db.conversations
  let rows := if limit < 0 then sorted else sorted.take limit.toNat
  rows.map summarize

/-- JSON encoding of one stored message, matching json.dumps key order. -/
def encHMsg (m : HMsg) : String :=
  "\x7b\"role\": " ++ encStr m.role ++ ", \"content\": " ++ encStr m.content ++
    ", \"at\": " ++ toString m.at_time ++ "\x7d"

/-- JSON encoding of a list with ", " separators. -/
def encList (enc : α → String) (l : List α) : String :=
  "[" ++ String.intercalate ", " (l.map enc) ++ "]"

/-- JSON encoding of one conversation summary dict, in insertion key
order (history.py lines 112-119). -/
def encSummary (s : ConvSummary) : String :=
  "\x7b\"id\": " ++ toString s.id ++
    ", \"started_at\": " ++ toString s.started_at ++
    ", \"updated_at\": " ++ toString s.updated_at ++
    ", \"message_count\": " ++ toString s.message_count ++
    ", \"preview\": " ++ encStr s.preview ++
    ", \"messages\": " ++ encList encHMsg s.messages ++ "\x7d"

/-- One row returned by get_data (history.py lines 159-166). -/
structure DataRecord where
  tool : String
  collected_at : Nat
  data : JVal

/-- JSON encoding of one collected-data dict. -/
def encDataRecord (r : DataRecord) : String :=
  "\x7b\"tool\": " ++ encStr r.tool ++
    ", \"collected_at\": " ++ toString r.collected_at ++
    ", \"data\": " ++ r.data.dumps ++ "\x7d"

/-- GetHistory of the D-Bus service (dbus_service.py lines 137-142):
json.dumps(hist.get_history(limit)) inside try, "[]" on any exception.
query is the store call, whose outcome may be a raised exception. -/
def GetHistoryD (limit : Int) (query : Int → Except String (List ConvSummary)) : String :=
  match query limit with
  | .ok r => encList encSummary r
  | .error _ => "[]"

/-- GetData of the D-Bus service (dbus_service.py lines 144-149). -/
def GetDataD (limit : Int) (query : Int → Except String (List DataRecord)) : String :=
  match query limit with
  | .ok r => encList encDataRecord r
  | .error _ => "[]"

/-- call_tool of the MCP server (mcp_server.py lines 161-187): dispatch by
name, unknown names become the unknown-tool payload, raising handlers the
error payload; the result is wrapped as a single text content item,
serialized like the chat loop's tool message. -/
def mcp_call_tool (dispatch : Registry) (name : String) (arguments : Args) :
    List (String × String) :=
  let result :=
    match dispatch.lookup name with
    | none => unknownToolPayload name
    | some handler =>
        match handler arguments with
        | .ok v => v
        | .error e => raisedPayload e
  [("text", toolContent result)]

/-! Helper lemmas. -/

/-- The chat loop's output does not depend on the outcomes of the
record_tool_data calls: agent.py wraps them in try/except-pass and discards
both result and exception. -/
theorem chatLoop_record_irrel (reg : Registry)
    (rec1 rec2 : String → JVal → Except String Unit)
    (rs : List BackendResp) (ms : List Msg) :
    chatLoop reg rec1 rs ms = chatLoop reg rec2 rs ms := by
  induction rs generalizing ms with
  | nil => rfl
  | cons r rest ih =>
    cases r with
    | failure e => rfl
    | reply content tool_calls =>
      simp only [chatLoop]
      by_cases h : tool_calls.isEmpty
      · simp [h]
      · simp only [h, if_neg, Bool.false_eq_true, not_false_eq_true]
        have hmap : tool_calls.map (toolMsg reg rec1) = tool_calls.map (toolMsg reg rec2) := rfl
        rw [hmap, ih]

/-- C3: for every prompt and message history, a transport failure of the
backend request (requests raising on the POST or on raise_for_status)
terminates the conversation loop immediately — independent of any further
backend behaviour — and the caller receives the textual error message as
the final response string rather than an exception. -/
theorem chat_transport_failure_returns_error_string
    (reg : Registry) (record : String → JVal → Except String Unit)
    (e : String) (rest : List BackendResp) (messages : List Msg)
    (prompt : String) (history : List Msg) :
    chatLoop reg record (BackendResp.failure e :: rest) messages =
      some ("Error connecting to Ollama: " ++ e, messages) ∧
    chat reg record (BackendResp.failure e :: rest) prompt history =
      some ("Error connecting to Ollama: " ++ e,
        history ++ [{ role := "user", content := prompt }]) :=
  ⟨rfl, rfl⟩

/-- C4: dispatching a tool name absent from the registry yields the error
payload with text "Unknown tool: name" — in the chat loop of agent.py and
in call_tool of mcp_server.py alike — and never raises past the dispatch
boundary (dispatchCall and mcp_call_tool are total functions); the loop
then continues, with the serialized payload appended as a tool message. -/
theorem unknown_tool_dispatch_error :
    (∀ (reg : Registry) (tc : ToolCall), reg.lookup tc.name = none →
        dispatchCall reg tc = unknownToolPayload tc.name) ∧
    (∀ (reg : Registry) (name : String) (args : Args), reg.lookup name = none →
        mcp_call_tool reg name args = [("text", (unknownToolPayload name).dumps)]) ∧
    (∀ (reg : Registry) (record : String → JVal → Except String Unit)
        (content : String) (rest : List BackendResp) (messages : List Msg) (tc : ToolCall),
        reg.lookup tc.name = none →
        chatLoop reg record (BackendResp.reply content [tc] :: rest) messages =
          chatLoop reg record rest
            ((messages ++ [assistantMsg content [tc]]) ++
              [{ role := "tool", content := (unknownToolPayload tc.name).dumps }])) := by
  refine ⟨?_, ?_, ?_⟩
  · intro reg tc h
    simp [dispatchCall, h]
  · intro reg name args h
    simp [mcp_call_tool, h, toolContent, unknownToolPayload]
  · intro reg record content rest messages tc h
    simp only [chatLoop, List.isEmpty_cons, if_neg, Bool.false_eq_true, not_false_eq_true,
      List.map_cons, List.map_nil]
    have hmsg : toolMsg reg record tc =
        { role := "tool", content := (unknownToolPayload tc.name).dumps } := by
      simp [toolMsg, dispatchCall, h, toolContent, unknownToolPayload]
    rw [hmsg]

/-- Witness for the unknown-tool property at a concrete registry and name. -/
theorem unknown_tool_dispatch_error_witness :
    dispatchCall [] { name := "frobnicate", arguments := ArgsIn.strBad } =
      unknownToolPayload "frobnicate" ∧
    mcp_call_tool [] "frobnicate" [] = [("text", (unknownToolPayload "frobnicate").dumps)] :=
  ⟨unknown_tool_dispatch_error.1 [] _ rfl,
   unknown_tool_dispatch_error.2.1 [] "frobnicate" [] rfl⟩

/-- C7: the status is "ready" at construction; a turn emits "thinking"
first and then "ready" on success or "error" on any of the three failure
points; "error" is not sticky — a subsequent successful turn emits
"thinking" then "ready" again, whatever state the previous turn left. -/
theorem status_lifecycle :
    initService.status = "ready" ∧
    (∀ (r : String) (hs : List Msg) (s : SvcState),
        Ask { appendUser := .ok (), chatTurn := .ok (r, hs), appendAssistant := .ok () } s =
          (r, { status := "ready", history := hs }, ["thinking", "ready"])) ∧
    (∀ (e : String) (c : Except String (String × List Msg)) (a : Except String Unit)
        (s : SvcState),
        (Ask { appendUser := .error e, chatTurn := c, appendAssistant := a } s).2.1.status =
            "error" ∧
          (Ask { appendUser := .error e, chatTurn := c, appendAssistant := a } s).2.2 =
            ["thinking", "error"]) ∧
    (∀ (e : String) (a : Except String Unit) (s : SvcState),
        (Ask { appendUser := .ok (), chatTurn := .error e, appendAssistant := a } s).2.1.status =
            "error" ∧
          (Ask { appendUser := .ok (), chatTurn := .error e, appendAssistant := a } s).2.2 =
            ["thinking", "error"]) ∧
    (∀ (e r : String) (hs : List Msg) (s : SvcState),
        (Ask { appendUser := .ok (), chatTurn := .ok (r, hs), appendAssistant := .error e }
              s).2.1.status = "error" ∧
          (Ask { appendUser := .ok (), chatTurn := .ok (r, hs), appendAssistant := .error e }
              s).2.2 = ["thinking", "error"]) ∧
    (∀ (env : TurnEnv) (s : SvcState) (r : String) (hs : List Msg),
        (Ask { appendUser := .ok (), chatTurn := .ok (r, hs), appendAssistant := .ok () }
              (Ask env s).2.1).2.1.status = "ready" ∧
          (Ask { appendUser := .ok (), chatTurn := .ok (r, hs), appendAssistant := .ok () }
              (Ask env s).2.1).2.2 = ["thinking", "ready"]) :=
  ⟨rfl, fun _ _ _ => rfl, fun _ _ _ _ => ⟨rfl, rfl⟩, fun _ _ _ => ⟨rfl, rfl⟩,
   fun _ _ _ _ => ⟨rfl, rfl⟩, fun _ _ _ _ => ⟨rfl, rfl⟩⟩

/-- C5 as stated fails on the code: a raising append_message is caught by
Ask's blanket except handler, so the caller receives "Error: disk full"
where a succeeding persistence layer would have delivered the chat
response "hello". -/
theorem persistence_error_changes_response_cex :
    (Ask { appendUser := .error "disk full", chatTurn := .ok ("hello", []),
            appendAssistant := .ok () } initService).1 = "Error: disk full" ∧
    (Ask { appendUser := .ok (), chatTurn := .ok ("hello", []),
            appendAssistant := .ok () } initService).1 = "hello" ∧
    ("Error: disk full" : String) ≠ "hello" := by
  refine ⟨rfl, rfl, ?_⟩
  decide

/-- C5 amended: failures of record_tool_data (the tool-output log) are
swallowed and never influence the loop's result, but append_message runs
inside Ask's try block, so its raising replaces the turn's result with the
textual "Error: e" — for the user-message append (before the chat) and the
assistant-message append (after it) alike. -/
theorem record_failure_harmless_append_failure_not :
    (∀ (reg : Registry) (rec1 rec2 : String → JVal → Except String Unit)
        (rs : List BackendResp) (ms : List Msg),
        chatLoop reg rec1 rs ms = chatLoop reg rec2 rs ms) ∧
    (∀ (e : String) (c : Except String (String × List Msg)) (a : Except String Unit)
        (s : SvcState),
        (Ask { appendUser := .error e, chatTurn := c, appendAssistant := a } s).1 =
          "Error: " ++ e) ∧
    (∀ (e r : String) (hs : List Msg) (s : SvcState),
        (Ask { appendUser := .ok (), chatTurn := .ok (r, hs), appendAssistant := .error e }
            s).1 = "Error: " ++ e) :=
  ⟨chatLoop_record_irrel, fun _ _ _ _ => rfl, fun _ _ _ _ => rfl⟩

/-- C10: the D-Bus history queries never raise: any exception of the
underlying store query is converted to the string "[]" (the JSON encoding
of the empty array), and a succeeding query is returned JSON-encoded. -/
theorem history_queries_never_raise :
    (∀ (limit : Int) (query : Int → Except String (List ConvSummary)) (e : String),
        query limit = .error e → GetHistoryD limit query = "[]") ∧
    (∀ (limit : Int) (query : Int → Except String (List ConvSummary)) (r : List ConvSummary),
        query limit = .ok r → GetHistoryD limit query = encList encSummary r) ∧
    (∀ (limit : Int) (query : Int → Except String (List DataRecord)) (e : String),
        query limit = .error e → GetDataD limit query = "[]") ∧
    (∀ (limit : Int) (query : Int → Except String (List DataRecord)) (r : List DataRecord),
        query limit = .ok r → GetDataD limit query = encList encDataRecord r) ∧
    encList encSummary ([] : List ConvSummary) = "[]" ∧
    encList encDataRecord ([] : List DataRecord) = "[]" := by
  refine ⟨?_, ?_, ?_, ?_, rfl, rfl⟩ <;> intro limit query x h <;>
    simp [GetHistoryD, GetDataD, h]

/-- Witness for the query-exception property at a concrete failing and a
concrete succeeding store. -/
theorem history_queries_never_raise_witness :
    GetHistoryD 5 (fun _ => .error "no such table") = "[]" ∧
    GetDataD 7 (fun _ => .ok []) = encList encDataRecord [] :=
  ⟨history_queries_never_raise.1 5 _ "no such table" rfl,
   history_queries_never_raise.2.2.2.1 7 _ [] rfl⟩

/-- C1: over any finite sequence of successful backend replies, the loop
returns exactly at the first reply carrying zero tool calls, and the final
text equals that reply's content; replies carrying tool calls never
terminate the loop (a sequence of only such replies leaves the loop
running, i.e. yields none in the model).  Replies are given as
(content, tool_calls) pairs. -/
theorem chat_terminates_at_first_final :
    (∀ (reg : Registry) (record : String → JVal → Except String Unit)
        (pre : List (String × List ToolCall)) (final_content : String)
        (rest : List BackendResp) (messages : List Msg),
        (∀ p ∈ pre, p.2 ≠ []) →
        ∃ ms,
          chatLoop reg record
            (pre.map (fun p => BackendResp.reply p.1 p.2) ++
              BackendResp.reply final_content [] :: rest)
            messages = some (final_content, ms)) ∧
    (∀ (reg : Registry) (record : String → JVal → Except String Unit)
        (rs : List (String × List ToolCall)) (messages : List Msg),
        (∀ p ∈ rs, p.2 ≠ []) →
        chatLoop reg record (rs.map (fun p => BackendResp.reply p.1 p.2)) messages = none) := by
  constructor
  · intro reg record pre final_content rest messages hpre
    induction pre generalizing messages with
    | nil =>
      exact ⟨_, rfl⟩
    | cons p ps ih =>
      have hp : p.2 ≠ [] := hpre p (List.mem_cons_self p ps)
      have hps : ∀ q ∈ ps, q.2 ≠ [] := fun q hq => hpre q (List.mem_cons_of_mem p hq)
      have hemp : p.2.isEmpty = false := by
        cases h2 : p.2 with
        | nil => exact absurd h2 hp
        | cons a l => rfl
      simpa [chatLoop, hemp] using ih _ hps
  · intro reg record rs messages hrs
    induction rs generalizing messages with
    | nil => rfl
    | cons p ps ih =>
      have hp : p.2 ≠ [] := hrs p (List.mem_cons_self p ps)
      have hps : ∀ q ∈ ps, q.2 ≠ [] := fun q hq => hrs q (List.mem_cons_of_mem p hq)
      have hemp : p.2.isEmpty = false := by
        cases h2 : p.2 with
        | nil => exact absurd h2 hp
        | cons a l => rfl
      simpa [chatLoop, hemp] using ih _ hps

/-- Witness for the termination property: one tool-call round followed by
a final reply terminates with the final content; the same round without a
final reply does not. -/
theorem chat_terminates_at_first_final_witness :
    (∃ ms,
        chatLoop [] (fun _ _ => Except.ok ())
          ([("", [{ name := "t", arguments := ArgsIn.strBad }])].map
              (fun p => BackendResp.reply p.1 p.2) ++
            BackendResp.reply "done" [] :: [])
          [] = some ("done", ms)) ∧
    chatLoop [] (fun _ _ => Except.ok ())
        ([("", [{ name := "t", arguments := ArgsIn.strBad }])].map
          (fun p => BackendResp.reply p.1 p.2))
        [] = none :=
  ⟨chat_terminates_at_first_final.1 [] _ _ "done" [] []
      (fun p hp => by
        rw [List.mem_singleton] at hp
        subst hp
        exact List.cons_ne_nil _ _),
   chat_terminates_at_first_final.2 [] _ _ []
      (fun p hp => by
        rw [List.mem_singleton] at hp
        subst hp
        exact List.cons_ne_nil _ _)⟩

/-- Scanning a concatenated trace threads the owner through the front part. -/
theorem scanLock_append (l1 l2 : List TurnEv) (h : Option Nat) :
    scanLock (l1 ++ l2) h =
      match scanLock l1 h with
      | some h2 => scanLock l2 h2
      | none => none := by
  induction l1 generalizing h with
  | nil => rfl
  | cons e es ih =>
    cases e with
    | spawn j => simpa [scanLock] using ih h
    | acquire j =>
      by_cases hc : h = none
      · subst hc
        simpa [scanLock] using ih (some j)
      · simp [scanLock, hc]
    | mutate j =>
      by_cases hc : h = some j
      · subst hc
        simpa [scanLock] using ih (some j)
      · simp [scanLock, hc]
    | release j =>
      by_cases hc : h = some j
      · subst hc
        simpa [scanLock] using ih none
      · simp [scanLock, hc]

/-- C2: in every reachable state of the service the event trace scans
cleanly to the current lock owner — so turns never interleave: no turn
begins, and no shared message list or status mutation happens, while
another job holds the turn lock — while the AskAsync spawn step (returning
the job id to the caller) is enabled in every state, lock held or not. -/
theorem ask_turns_serialize :
    (∀ (s : AgentSched), AReach s → scanLock s.log none = some s.lock) ∧
    (∀ (s : AgentSched), AReach s → turnsDisjoint s.log) ∧
    (∀ (s : AgentSched) (j : Nat), AStep s { s with log := s.log ++ [TurnEv.spawn j] }) := by
  have hscan : ∀ (s : AgentSched), AReach s → scanLock s.log none = some s.lock := by
    intro s hs
    induction hs with
    | init => rfl
    | step hr hst ih =>
      cases hst with
      | spawn j s => simp [scanLock_append, ih, scanLock]
      | acquire j s h => simp [scanLock_append, ih, scanLock, h]
      | mutate j s h => simp [scanLock_append, ih, scanLock, h]
      | release j s h => simp [scanLock_append, ih, scanLock, h]
  exact ⟨hscan, fun s hs => ⟨s.lock, hscan s hs⟩, fun s j => AStep.spawn j s⟩

/-- Witness: a concrete execution — two jobs spawned back-to-back, the
first acquiring the lock and mutating — scans to owner 1. -/
theorem ask_turns_serialize_witness :
    scanLock [TurnEv.spawn 1, TurnEv.spawn 2, TurnEv.acquire 1, TurnEv.mutate 1] none =
      some (some 1) :=
  ask_turns_serialize.1
    { lock := some 1, log := [TurnEv.spawn 1, TurnEv.spawn 2, TurnEv.acquire 1, TurnEv.mutate 1] }
    (AReach.step
      (AReach.step
        (AReach.step (AReach.step AReach.init (AStep.spawn 1 _)) (AStep.spawn 2 _))
        (AStep.acquire 1 _ rfl))
      (AStep.mutate 1 _ rfl))

/-- Invariant of the AUTOINCREMENT id allocation: every stored id is below
the next id to be handed out. -/
def IdsBounded (db : HistDB) : Prop := ∀ c ∈ db.conversations, c.id < db.nextId

/-- UPDATE ... WHERE id=? leaves lookup by that id pointing at the
rewritten row, provided the rewrite preserves the id. -/
theorem lookupConv_updateConv (cid : Nat) (f : Conv → Conv)
    (hf : ∀ c, (f c).id = c.id) (l : List Conv) :
    lookupConv cid (updateConv cid f l) = (lookupConv cid l).map f := by
  induction l with
  | nil => rfl
  | cons c tl ih =>
    simp only [lookupConv, updateConv, List.map_cons] at ih ⊢
    by_cases h : c.id = cid
    · have hbeq : (c.id == cid) = true := by simp [h]
      have hhead : (if (c.id == cid) = true then f c else c) = f c := by simp [hbeq]
      have hbeq2 : ((f c).id == cid) = true := by simp [hf, h]
      rw [hhead, List.find?_cons, List.find?_cons, hbeq, hbeq2]
      rfl
    · have hbeq : (c.id == cid) = false := by simp [h]
      have hhead : (if (c.id == cid) = true then f c else c) = c := by simp [hbeq]
      rw [hhead, List.find?_cons, List.find?_cons, hbeq]
      exact ih

/-- Lookup in a table extended with a row of the sought id finds a row. -/
theorem lookupConv_append_self (l : List Conv) (nid : Nat) (x : Conv) (hx : x.id = nid) :
    ∃ row, lookupConv nid (l ++ [x]) = some row := by
  induction l with
  | nil =>
    refine ⟨x, ?_⟩
    have hbeq : (x.id == nid) = true := by simp [hx]
    simp only [List.nil_append, lookupConv, List.find?_cons, hbeq]
  | cons c tl ih =>
    by_cases h : c.id = nid
    · refine ⟨c, ?_⟩
      have hbeq : (c.id == nid) = true := by simp [h]
      simp only [List.cons_append, lookupConv, List.find?_cons, hbeq]
    · obtain ⟨row, hrow⟩ := ih
      refine ⟨row, ?_⟩
      have hbeq : (c.id == nid) = false := by simp [h]
      simp only [List.cons_append, lookupConv, List.find?_cons, hbeq] at hrow ⊢
      exact hrow

/-- After _get_or_create_conversation, the module-global current pointer
names exactly the returned conversation id. -/
theorem getOrCreate_current (now : Nat) (db : HistDB) :
    ((getOrCreateConversation now db).2).currentConvId =
      some (getOrCreateConversation now db).1 := by
  unfold getOrCreateConversation
  split
  · next cid heq =>
    split
    · next row hrow =>
      split
      · next hgap => simpa using heq
      · rfl
    · rfl
  · rfl

/-- After _get_or_create_conversation, a row with the returned id exists. -/
theorem getOrCreate_row (now : Nat) (db : HistDB) :
    ∃ row, lookupConv (getOrCreateConversation now db).1
        ((getOrCreateConversation now db).2).conversations = some row := by
  unfold getOrCreateConversation
  split
  · next cid heq =>
    split
    · next row hrow =>
      split
      · next hgap => exact ⟨row, hrow⟩
      · next hgap => exact lookupConv_append_self _ _ _ rfl
    · exact lookupConv_append_self _ _ _ rfl
  · exact lookupConv_append_self _ _ _ rfl

/-- Reduction of _get_or_create_conversation when the current pointer and
its row are known: the gap test decides between reuse and creation. -/
theorem getOrCreate_of_current_row (now : Nat) (db : HistDB) (cid : Nat) (row : Conv)
    (hcur : db.currentConvId = some cid) (hrow : lookupConv cid db.conversations = some row) :
    getOrCreateConversation now db =
      if now - row.updated_at < SESSION_GAP then (cid, db) else newConv now db := by
  unfold getOrCreateConversation
  rw [hcur]
  simp only [hrow]

/-- Reduction of _get_or_create_conversation when no current conversation
exists: a fresh one is created. -/
theorem getOrCreate_of_no_current (now : Nat) (db : HistDB)
    (hcur : db.currentConvId = none) :
    getOrCreateConversation now db = newConv now db := by
  unfold getOrCreateConversation
  rw [hcur]

/-- State after append_message: the current pointer names a conversation
whose stored row exists and carries updated_at = now, with the new message
dict at the end of its message list; nextId and currentConvId come from
the get-or-create step, and the other rows keep their ids. -/
theorem append_message_state (role content : String) (now : Nat) (db : HistDB) :
    ∃ (cid : Nat) (row0 : Conv),
      (append_message role content now db).currentConvId = some cid ∧
      (append_message role content now db).nextId =
        ((getOrCreateConversation now db).2).nextId ∧
      lookupConv cid (append_message role content now db).conversations =
        some { row0 with
                messages := row0.messages ++ [{ role := role, content := content, at_time := now }],
                updated_at := now } := by
  obtain ⟨row0, hrow0⟩ := getOrCreate_row now db
  refine ⟨(getOrCreateConversation now db).1, row0, ?_, rfl, ?_⟩
  · simpa [append_message] using getOrCreate_current now db
  · simp only [append_message]
    rw [lookupConv_updateConv (getOrCreateConversation now db).1
        (fun c =>
          { c with
            messages := c.messages ++ [{ role := role, content := content, at_time := now }],
            updated_at := now })
        (fun c => rfl), hrow0]
    rfl

/-- updateConv preserves the multiset of ids (pointwise: it maps each row
to one with the same id). -/
theorem idsBounded_updateConv (cid : Nat) (f : Conv → Conv)
    (hf : ∀ c, (f c).id = c.id) (db : HistDB) (hb : IdsBounded db) :
    IdsBounded { db with conversations := updateConv cid f db.conversations } := by
  intro c hc
  simp only [updateConv, List.mem_map] at hc
  obtain ⟨c0, hc0, heq⟩ := hc
  by_cases h : (c0.id == cid) = true
  · rw [← heq]
    simpa [h, hf] using hb c0 hc0
  · rw [← heq]
    simpa [h] using hb c0 hc0

/-- The get-or-create step preserves the id bound. -/
theorem idsBounded_getOrCreate (now : Nat) (db : HistDB) (hb : IdsBounded db) :
    IdsBounded ((getOrCreateConversation now db).2) := by
  have hnew : IdsBounded (newConv now db).2 := by
    intro c hc
    simp only [newConv, List.mem_append, List.mem_singleton] at hc
    cases hc with
    | inl h => exact Nat.lt_succ_of_lt (hb c h)
    | inr h => simp [newConv, h]
  unfold getOrCreateConversation
  split
  · next cid heq =>
    split
    · next row hrow =>
      split
      · next hgap => exact hb
      · exact hnew
    · exact hnew
  · exact hnew

/-- append_message preserves the id bound. -/
theorem idsBounded_append (role content : String) (now : Nat) (db : HistDB)
    (hb : IdsBounded db) :
    IdsBounded (append_message role content now db) := by
  have h1 := idsBounded_updateConv (getOrCreateConversation now db).1
      (fun c =>
        { c with
          messages := c.messages ++ [{ role := role, content := content, at_time := now }],
          updated_at := now })
      (fun c => rfl) ((getOrCreateConversation now db).2)
      (idsBounded_getOrCreate now db hb)
  intro c hc
  exact h1 c hc

/-- A successful lookup names a stored row with the sought id. -/
theorem lookupConv_mem (cid : Nat) (l : List Conv) (row : Conv)
    (h : lookupConv cid l = some row) : row ∈ l ∧ row.id = cid := by
  refine ⟨List.mem_of_find?_eq_some h, ?_⟩
  have := List.find?_some h
  simpa using this

/-- Unfolding equation of append_message. -/
theorem append_message_def (role content : String) (now : Nat) (d : HistDB) :
    append_message role content now d =
      { (getOrCreateConversation now d).2 with
        conversations :=
          updateConv (getOrCreateConversation now d).1
            (fun c =>
              { c with
                messages :=
                  c.messages ++ [{ role := role, content := content, at_time := now }],
                updated_at := now })
            ((getOrCreateConversation now d).2).conversations } := rfl

/-- C6: after an append_message at time t1, the current conversation's
stored row carries updated_at = t1; a second call at t2 with gap below the
2-hour threshold picks the same conversation id and appends to its message
list, while a gap at or above the threshold (strict < in the source) makes
the fresh id nextId — distinct from the current one — the new current
conversation; and when no current conversation exists the first call
already created the fresh id. -/
theorem append_message_session_gap (db : HistDB) (hb : IdsBounded db)
    (r1 c1 : String) (t1 : Nat) :
    ∃ (cid1 : Nat) (row1 : Conv),
      (append_message r1 c1 t1 db).currentConvId = some cid1 ∧
      lookupConv cid1 (append_message r1 c1 t1 db).conversations = some row1 ∧
      row1.updated_at = t1 ∧
      (∀ t2, t2 - t1 < SESSION_GAP →
          getOrCreateConversation t2 (append_message r1 c1 t1 db) =
            (cid1, append_message r1 c1 t1 db) ∧
          (∀ r2 c2,
            lookupConv cid1
                (append_message r2 c2 t2 (append_message r1 c1 t1 db)).conversations =
              some { row1 with
                      messages :=
                        row1.messages ++ [{ role := r2, content := c2, at_time := t2 }],
                      updated_at := t2 })) ∧
      (∀ t2, SESSION_GAP ≤ t2 - t1 →
          (getOrCreateConversation t2 (append_message r1 c1 t1 db)).1 =
              (append_message r1 c1 t1 db).nextId ∧
            (append_message r1 c1 t1 db).nextId ≠ cid1 ∧
            ((getOrCreateConversation t2 (append_message r1 c1 t1 db)).2).currentConvId =
              some (append_message r1 c1 t1 db).nextId) ∧
      (db.currentConvId = none → cid1 = db.nextId) := by
  obtain ⟨cid, row0, hcur, hnext, hlook⟩ := append_message_state r1 c1 t1 db
  set db1 := append_message r1 c1 t1 db with hdb1
  refine ⟨cid,
    { row0 with
      messages := row0.messages ++ [{ role := r1, content := c1, at_time := t1 }],
      updated_at := t1 },
    hcur, hlook, rfl, ?_, ?_, ?_⟩
  · intro t2 h2
    have hgc := getOrCreate_of_current_row t2 db1 cid _ hcur hlook
    rw [if_pos h2] at hgc
    refine ⟨hgc, ?_⟩
    intro r2 c2
    rw [append_message_def]
    simp only [hgc]
    rw [lookupConv_updateConv cid
        (fun c =>
          { c with
            messages := c.messages ++ [{ role := r2, content := c2, at_time := t2 }],
            updated_at := t2 })
        (fun c => rfl), hlook]
    rfl
  · intro t2 h2
    have hgc := getOrCreate_of_current_row t2 db1 cid _ hcur hlook
    rw [if_neg (Nat.not_lt.mpr h2)] at hgc
    have hcidlt : cid < db1.nextId := by
      obtain ⟨hmem, hid⟩ := lookupConv_mem cid _ _ hlook
      have hB := idsBounded_append r1 c1 t1 db hb _ hmem
      rw [hid] at hB
      exact hB
    refine ⟨?_, Nat.ne_of_gt hcidlt, ?_⟩
    · rw [hgc]
      rfl
    · rw [hgc]
      rfl
  · intro hnone
    have h1 : db1.currentConvId = some db.nextId := by
      rw [hdb1]
      simp only [append_message, getOrCreate_of_no_current t1 db hnone]
      rfl
    exact (Option.some.inj (h1.symm.trans hcur)).symm

/-- Witness: on an empty store, an append at t=1000 followed by a lookup at
t=2000 (10 min < 2 h) reuses the conversation, while t=10000 (2.5 h gap)
allocates the next id. -/
theorem append_message_session_gap_witness :
    ∃ (cid1 : Nat),
      (append_message "user" "hi" 1000
          { conversations := [], nextId := 1, currentConvId := none }).currentConvId =
          some cid1 ∧
      getOrCreateConversation 2000
          (append_message "user" "hi" 1000
            { conversations := [], nextId := 1, currentConvId := none }) =
        (cid1,
          append_message "user" "hi" 1000
            { conversations := [], nextId := 1, currentConvId := none }) ∧
      (getOrCreateConversation 10000
            (append_message "user" "hi" 1000
              { conversations := [], nextId := 1, currentConvId := none })).1 =
        (append_message "user" "hi" 1000
            { conversations := [], nextId := 1, currentConvId := none }).nextId := by
  obtain ⟨cid1, row1, hcur, hlook, hupd, hsmall, hlarge, hnone⟩ :=
    append_message_session_gap { conversations := [], nextId := 1, currentConvId := none }
      (fun c hc => absurd hc (List.not_mem_nil c)) "user" "hi" 1000
  exact ⟨cid1, hcur, (hsmall 2000 (by decide)).1, (hlarge 10000 (by decide)).1⟩

/-- DELETE removes fewer rows than stored exactly when some row matches. -/
theorem filter_length_lt_iff (p : Conv → Bool) (l : List Conv) :
    (l.filter p).length < l.length ↔ ∃ c ∈ l, p c = false := by
  induction l with
  | nil => simp
  | cons c tl ih =>
    cases hc : p c with
    | true =>
      simp only [List.filter_cons, hc, if_pos, List.length_cons, Nat.succ_lt_succ_iff, ih]
      simp [hc]
    | false =>
      simp only [List.filter_cons, hc, List.length_cons]
      constructor
      · intro _
        exact ⟨c, List.mem_cons_self c tl, hc⟩
      · intro _
        exact Nat.lt_succ_of_le (List.length_filter_le p tl)

/-- C9: delete_conversation returns true exactly when a row with the id
existed; on a missing id it returns false and leaves the stored
conversations unchanged; and when the deleted conversation was the current
one, the pointer is cleared, so the next append_message creates the fresh
conversation id nextId — never the stale deleted id. -/
theorem delete_conversation_spec (db : HistDB) (cid : Nat) (hb : IdsBounded db) :
    ((delete_conversation cid db).1 = true ↔ ∃ c ∈ db.conversations, c.id = cid) ∧
    ((¬ ∃ c ∈ db.conversations, c.id = cid) →
        (delete_conversation cid db).1 = false ∧
        (delete_conversation cid db).2.conversations = db.conversations) ∧
    (db.currentConvId = some cid →
        (delete_conversation cid db).2.currentConvId = none ∧
        (∀ (role content : String) (t : Nat),
            (append_message role content t (delete_conversation cid db).2).currentConvId =
              some db.nextId) ∧
        ((∃ c ∈ db.conversations, c.id = cid) → db.nextId ≠ cid)) := by
  have hmain : (delete_conversation cid db).1 = true ↔ ∃ c ∈ db.conversations, c.id = cid := by
    simp only [delete_conversation, decide_eq_true_eq]
    rw [tsub_pos_iff_lt, filter_length_lt_iff]
    constructor
    · rintro ⟨c, hcmem, hcp⟩
      exact ⟨c, hcmem, by simpa using hcp⟩
    · rintro ⟨c, hcmem, hcp⟩
      exact ⟨c, hcmem, by simpa using hcp⟩
  refine ⟨hmain, ?_, ?_⟩
  · intro hne
    have hfil : db.conversations.filter (fun c => c.id != cid) = db.conversations := by
      apply List.filter_eq_self.mpr
      intro c hcmem
      have : ¬ c.id = cid := fun h => hne ⟨c, hcmem, h⟩
      simpa using this
    constructor
    · cases hv : (delete_conversation cid db).1 with
      | false => rfl
      | true => exact absurd (hmain.mp hv) hne
    · simp only [delete_conversation]
      exact hfil
  · intro hcur
    have hnone : (delete_conversation cid db).2.currentConvId = none := by
      simp [delete_conversation, hcur]
    refine ⟨hnone, ?_, ?_⟩
    · intro role content t
      rw [append_message_def, getOrCreate_of_no_current t _ hnone]
      rfl
    · rintro ⟨c, hcmem, hcid⟩
      have := hb c hcmem
      rw [hcid] at this
      exact Nat.ne_of_gt this

/-- Witness: a store holding one conversation with id 1 that is current —
deleting id 1 reports true, clears the pointer, and the next append makes
id 2 (the nextId) current. -/
theorem delete_conversation_spec_witness :
    (delete_conversation 1
        { conversations := [{ id := 1, started_at := 0, updated_at := 0, messages := [] }],
          nextId := 2, currentConvId := some 1 }).1 = true ∧
    (delete_conversation 1
        { conversations := [{ id := 1, started_at := 0, updated_at := 0, messages := [] }],
          nextId := 2, currentConvId := some 1 }).2.currentConvId = none ∧
    (append_message "user" "hi" 5
        (delete_conversation 1
          { conversations := [{ id := 1, started_at := 0, updated_at := 0, messages := [] }],
            nextId := 2, currentConvId := some 1 }).2).currentConvId = some 2 := by
  have hb : IdsBounded
      { conversations := [{ id := 1, started_at := 0, updated_at := 0, messages := [] }],
        nextId := 2, currentConvId := some 1 } := by
    intro c hc
    rw [List.mem_singleton] at hc
    subst hc
    decide
  have h := delete_conversation_spec
    { conversations := [{ id := 1, started_at := 0, updated_at := 0, messages := [] }],
      nextId := 2, currentConvId := some 1 } 1 hb
  exact ⟨h.1.mpr ⟨_, List.mem_singleton.mpr rfl, rfl⟩, (h.2.2 rfl).1,
    (h.2.2 rfl).2.1 "user" "hi" 5⟩

instance : IsTotal Conv (fun a b => b.updated_at ≤ a.updated_at) :=
  ⟨fun a b => Nat.le_total b.updated_at a.updated_at⟩

instance : IsTrans Conv (fun a b => b.updated_at ≤ a.updated_at) :=
  ⟨fun _ _ _ hab hbc => Nat.le_trans hbc hab⟩

/-- C8 as stated fails for a negative limit: SQLite treats LIMIT -1 as
unlimited, so GetHistory(-1) over one stored conversation returns one
summary, not at most -1 of them. -/
theorem get_history_negative_limit_cex :
    (get_history (-1)
        { conversations := [{ id := 1, started_at := 0, updated_at := 0, messages := [] }],
          nextId := 2, currentConvId := none }).length = 1 ∧
    ¬ (((get_history (-1)
          { conversations := [{ id := 1, started_at := 0, updated_at := 0, messages := [] }],
            nextId := 2, currentConvId := none }).length : Int) ≤ -1) := by
  constructor
  · rfl
  · decide

/-- C8 amended: for every store and every non-negative limit, get_history
returns at most limit summaries (a negative limit returns all of them),
ordered most-recently-updated first, each summary derived from a stored
conversation with message_count the length of its message list and preview
the first user message truncated to 120 characters or "(empty)". -/
theorem get_history_spec (db : HistDB) (limit : Int) :
    (0 ≤ limit → ((get_history limit db).length : Int) ≤ limit) ∧
    (limit < 0 →
        get_history limit db = (sortByUpdatedDesc db.conversations).map summarize) ∧
    (get_history limit db).Pairwise (fun a b => b.updated_at ≤ a.updated_at) ∧
    (∀ s ∈ get_history limit db,
        (∃ c ∈ db.conversations, s = summarize c) ∧
        s.message_count = s.messages.length ∧
        s.preview =
          (match s.messages.filter (fun m => m.role == "user") with
            | [] => "(empty)"
            | m :: _ => m.content.take 120)) := by
  have hsorted : (sortByUpdatedDesc db.conversations).Pairwise
      (fun a b => b.updated_at ≤ a.updated_at) :=
    List.sorted_insertionSort _ db.conversations
  have hmem : ∀ c ∈ sortByUpdatedDesc db.conversations, c ∈ db.conversations := by
    intro c hc
    simp only [sortByUpdatedDesc] at hc
    exact (List.perm_insertionSort (fun a b => b.updated_at ≤ a.updated_at)
      db.conversations).mem_iff.mp hc
  refine ⟨?_, ?_, ?_, ?_⟩
  · intro h0
    have hneg : ¬ limit < 0 := not_lt.mpr h0
    simp only [get_history, hneg, if_false, List.length_map]
    calc ((List.take limit.toNat (sortByUpdatedDesc db.conversations)).length : Int)
        ≤ (limit.toNat : Int) := by
          exact_mod_cast List.length_take_le limit.toNat (sortByUpdatedDesc db.conversations)
      _ = limit := Int.toNat_of_nonneg h0
  · intro hneg
    simp [get_history, hneg]
  · have hrows : (if limit < 0 then sortByUpdatedDesc db.conversations
        else (sortByUpdatedDesc db.conversations).take limit.toNat).Pairwise
          (fun a b => b.updated_at ≤ a.updated_at) := by
      by_cases hneg : limit < 0
      · simpa [hneg] using hsorted
      · simp only [hneg, if_false]
        exact hsorted.sublist (List.take_sublist _ _)
    simp only [get_history]
    rw [List.pairwise_map]
    exact hrows.imp (fun h => h)
  · intro s hs
    simp only [get_history, List.mem_map] at hs
    obtain ⟨c, hc, hsc⟩ := hs
    have hcs : c ∈ sortByUpdatedDesc db.conversations := by
      by_cases hneg : limit < 0
      · simpa [hneg] using hc
      · simp only [hneg, if_false] at hc
        exact List.mem_of_mem_take hc
    subst hsc
    exact ⟨⟨c, hmem c hcs, rfl⟩, rfl, rfl⟩

/-- Witness: two stored conversations, limit 1 yields one summary (the
most recently updated), limit -1 yields both. -/
theorem get_history_spec_witness :
    ((get_history 1
        { conversations :=
            [{ id := 1, started_at := 0, updated_at := 10, messages := [] },
             { id := 2, started_at := 5, updated_at := 20, messages := [] }],
          nextId := 3, currentConvId := none }).length : Int) ≤ 1 ∧
    get_history (-1)
        { conversations :=
            [{ id := 1, started_at := 0, updated_at := 10, messages := [] },
             { id := 2, started_at := 5, updated_at := 20, messages := [] }],
          nextId := 3, currentConvId := none } =
      (sortByUpdatedDesc
          [{ id := 1, started_at := 0, updated_at := 10, messages := [] },
           { id := 2, started_at := 5, updated_at := 20, messages := [] }]).map summarize :=
  ⟨(get_history_spec
      { conversations :=
          [{ id := 1, started_at := 0, updated_at := 10, messages := [] },
           { id := 2, started_at := 5, updated_at := 20, messages := [] }],
        nextId := 3, currentConvId := none } 1).1 (by decide),
   (get_history_spec
      { conversations :=
          [{ id := 1, started_at := 0, updated_at := 10, messages := [] },
           { id := 2, started_at := 5, updated_at := 20, messages := [] }],
        nextId := 3, currentConvId := none } (-1)).2.1 (by decide)⟩
